import Mathlib

/-!
Verification of the weak-task lifecycle service
(`src/libcore/private/weak_task.rs`).

The Rust source is shallowly embedded as follows.

* `weaken_task` is modelled as a trace of the observable effects the
  function performs, parametrised by the outcomes of the external
  collaborators it interacts with: whether the registration `try_send`
  is accepted by the coordinator (`registerOk`), whether the
  caller-supplied work `f` fails (`workFails`), and whether the
  coordinator is still alive to receive the final best-effort
  `UnregisterWeakTask` send (`serviceAlive`).  The trace order follows
  the source line by line: `try_send(RegisterWeakTask(task, chan))`
  guarded by `assert`, then `rust_dec_kernel_live_count`, then the body
  `f(shutdown_port)` wrapped in `finally` whose handler performs
  `rust_inc_kernel_live_count` followed by `send(UnregisterWeakTask(task))`.

* `run_weak_task_service` is modelled as a function from the list of
  messages the coordinator receives to its resulting state and the list
  of shutdown-notification sends it performs.  The `LinearMap` of the
  source is modelled as an association list with the same operational
  behaviour (`insert` returns whether the key was previously absent,
  `pop` removes and returns the entry).  Receiver liveness for the
  best-effort one-shot sends is a parameter `alive`; a send records the
  channel and whether it was delivered, exactly because the source
  swallows delivery failure.

* `create_global_service` is modelled as the list of bootstrap effects
  the source constructor performs, and the lazy-singleton primitive
  `global_data_clone_create` (which lives in `private/global.rs`,
  outside the excerpt) is modelled from the spec.
-/

namespace WeakTask

/-- Task handles (`task_id` in the source) are opaque process-unique ids. -/
abbrev TaskHandle := Nat

/-- Channel identities for the one-shot shutdown-notification channels. -/
abbrev ChanId := Nat

/-- Observable events of one `weaken_task` call, in source order. -/
inductive WeakenEvent where
  /-- `service.try_send(RegisterWeakTask(task, shutdown_chan))`; the field
  records whether the coordinator accepted the message. -/
  | registerTrySend (t : TaskHandle) (accepted : Bool)
  /-- the `assert` on the `try_send` result fails the calling task. -/
  | assertFailed
  /-- `rust_dec_kernel_live_count()`. -/
  | decCount
  /-- the caller-supplied work `f(shutdown_port)` starts running. -/
  | workStart
  /-- the caller-supplied work finishes; the field records failure. -/
  | workEnd (failed : Bool)
  /-- `rust_inc_kernel_live_count()` inside the `finally` handler. -/
  | incCount
  /-- `service.send(UnregisterWeakTask(task))` inside the `finally`
  handler; the field records whether the coordinator still received it. -/
  | unregisterSend (t : TaskHandle) (delivered : Bool)
deriving DecidableEq, Repr

/-- How a `weaken_task` call itself ends, as seen by the calling task. -/
inductive CallResult where
  /-- `f` returned normally and the call returns normally. -/
  | normal
  /-- `f` failed; the failure propagates to the caller after the
  `finally` handler has run. -/
  | failedWork
  /-- the `assert` on the registration `try_send` failed the task. -/
  | failedAssert
deriving DecidableEq, Repr

/-- Trace and outcome of `weaken_task` (weak_task.rs lines 36-53).
The source first sends the registration (asserting acceptance), then
decrements the kernel live count, then runs `f` under a `finally` whose
handler re-increments the count and best-effort-sends the unregistration. -/
def weaken_task (t : TaskHandle) (registerOk workFails serviceAlive : Bool) :
    List WeakenEvent × CallResult :=
  if registerOk then
    ([.registerTrySend t true, .decCount, .workStart, .workEnd workFails,
      .incCount, .unregisterSend t serviceAlive],
     if workFails then .failedWork else .normal)
  else
    ([.registerTrySend t false, .assertFailed], .failedAssert)

/-- Contribution of one event to the kernel live count. -/
def counterDelta : WeakenEvent → Int
  | .decCount => -1
  | .incCount => 1
  | _ => 0

/-- Net change of the kernel live count over a trace. -/
def netCounterChange (tr : List WeakenEvent) : Int :=
  (tr.map counterDelta).sum

/-- `occursBefore tr a b` holds when both events occur in the trace and
the first occurrence of `a` is strictly before the first occurrence of `b`. -/
def occursBefore {α : Type} [DecidableEq α] (tr : List α) (a b : α) : Bool :=
  tr.contains a && tr.contains b && Nat.blt (tr.indexOf a) (tr.indexOf b)

/-- Messages of the weak-task service (`enum ServiceMsg` in the source). -/
inductive ServiceMsg where
  | RegisterWeakTask (t : TaskHandle) (c : ChanId)
  | UnregisterWeakTask (t : TaskHandle)
  | Shutdown
deriving DecidableEq, Repr

/-- The coordinator's `shutdown_map`: a `LinearMap<TaskHandle, Chan>`
modelled as an association list. -/
abbrev ShutdownMap := List (TaskHandle × ChanId)

/-- Keys currently present in the map. -/
def mapKeys (m : ShutdownMap) : List TaskHandle :=
  m.map Prod.fst

/-- `LinearMap::contains_key`. -/
def mapContains (m : ShutdownMap) (t : TaskHandle) : Bool :=
  m.any (fun p => p.1 == t)

/-- `LinearMap::insert`: stores the binding and returns `true` exactly when
the key was previously absent (the Boolean the source's `assert` checks). -/
def mapInsert (m : ShutdownMap) (t : TaskHandle) (c : ChanId) :
    ShutdownMap × Bool :=
  if mapContains m t then
    (m.map (fun p => if p.1 == t then (t, c) else p), false)
  else
    (m ++ [(t, c)], true)

/-- `LinearMap::pop`: removes the binding for `t` and returns its value
together with the remaining map, or `none` when `t` is absent. -/
def mapPop (m : ShutdownMap) (t : TaskHandle) :
    Option (ChanId × ShutdownMap) :=
  match m with
  | [] => none
  | p :: rest =>
    if p.1 == t then some (p.2, rest)
    else
      match mapPop rest t with
      | some (c, m') => some (c, p :: m')
      | none => none

/-- `LinearMap::find` on the map, used to state which channel an
`Unregister` signalled. -/
def lookupTask (m : ShutdownMap) (t : TaskHandle) : Option ChanId :=
  match m with
  | [] => none
  | p :: rest => if p.1 == t then some p.2 else lookupTask rest t

/-- State the coordinator is left in after consuming a finite list of
messages. -/
inductive ServiceState where
  /-- still blocked in `port.recv()` with the current map. -/
  | waiting (map : ShutdownMap)
  /-- `Shutdown` was processed: the loop broke, the map was drained and
  consumed, and the function returned. -/
  | terminated
  /-- an `assert`/`fail` fired and the coordinator task died. -/
  | failed
deriving DecidableEq, Repr

/-- Result of running the coordinator: its final state plus every
shutdown-notification send it performed, each recorded as the channel and
whether the receiving end was still alive to take delivery. -/
structure ServiceRun where
  state : ServiceState
  signals : List (ChanId × Bool)
deriving DecidableEq, Repr

/-- The coordinator loop `run_weak_task_service` (weak_task.rs lines
98-127), run over a finite prefix of its message stream.  `alive` tells,
for each one-shot channel, whether its receiving end still exists; the
source swallows the outcome of those sends, so `alive` feeds only the
recorded `delivered` flag, never the control flow. -/
def run_weak_task_service (alive : ChanId → Bool) :
    ShutdownMap → List ServiceMsg → ServiceRun
  | m, [] => ⟨.waiting m, []⟩
  | m, .RegisterWeakTask t c :: rest =>
    let r := mapInsert m t c
    if r.2 then run_weak_task_service alive r.1 rest
    else ⟨.failed, []⟩
  | m, .UnregisterWeakTask t :: rest =>
    match mapPop m t with
    | some (c, m') =>
      let r := run_weak_task_service alive m' rest
      ⟨r.state, (c, alive c) :: r.signals⟩
    | none => ⟨.failed, []⟩
  | m, .Shutdown :: _ =>
    ⟨.terminated, m.map (fun p => (p.2, alive p.2))⟩

/-- Number of times a given shutdown-notification send occurs in a list of
performed sends. -/
def countSignal (sigs : List (ChanId × Bool)) (s : ChanId × Bool) : Nat :=
  (sigs.filter (fun x => decide (x = s))).length

/-- A shareable handle on the coordinator's inbound channel
(`WeakTaskService = SharedChan<ServiceMsg>`). -/
structure ServiceHandle where
  chanId : ChanId
deriving DecidableEq, Repr

/-- The channel id of the coordinator's inbound channel created by
`create_global_service`. -/
def serviceChanId : ChanId := 0

/-- Bootstrap effects performed by `create_global_service`. -/
inductive BootstrapEvent where
  /-- `task().unlinked().spawn { ... }`; the field records whether the
  spawn was unlinked. -/
  | spawnCoordinator (unlinked : Bool)
  /-- `at_exit { chan.send(Shutdown) }`; the field records the message the
  registered callback sends to the coordinator. -/
  | registerExitHook (callbackMsg : ServiceMsg)
  /-- `return ~chan_clone`. -/
  | returnHandle (h : ServiceHandle)
deriving DecidableEq, Repr

/-- `create_global_service` (weak_task.rs lines 66-96): spawns the
coordinator unlinked, registers an at-exit hook that sends `Shutdown` on
the service channel, and returns a clone of that same channel.  It is a
total function: construction reports no error. -/
def create_global_service : List BootstrapEvent × ServiceHandle :=
  ([.spawnCoordinator true, .registerExitHook .Shutdown,
    .returnHandle ⟨serviceChanId⟩], ⟨serviceChanId⟩)

/-- Modelled from the spec: `global_data_clone_create` lives in
`private/global.rs`, which is outside the excerpt.  Per the spec it is the
lazily-initialized global-singleton primitive: the first access runs the
constructor exactly once and stores the value; every later access returns
a clone of the same stored value and runs no constructor; construction
cannot fail.  The model threads the singleton cell explicitly (`state`)
and returns the handle, the updated cell, and the bootstrap effects the
call performed. -/
def global_data_clone_create (state : Option ServiceHandle)
    (create : Unit → List BootstrapEvent × ServiceHandle) :
    ServiceHandle × Option ServiceHandle × List BootstrapEvent :=
  match state with
  | some v => (v, some v, [])
  | none =>
    let r := create ()
    (r.2, some r.2, r.1)

/-- Observable events of the coordinator task body spawned by
`create_global_service` (weak_task.rs lines 74-88). -/
inductive CoordEvent where
  /-- `rust_dec_kernel_live_count()` before the run loop. -/
  | decCount
  /-- `run_weak_task_service(port)`; the field records whether the loop
  ended normally (`Shutdown` drain) rather than by failure. -/
  | serviceLoop (endedNormally : Bool)
  /-- `rust_inc_kernel_live_count()` in the `finally` handler. -/
  | incCount
  /-- a message the coordinator itself would send on the service channel;
  the body sends none, in particular no `RegisterWeakTask` for itself. -/
  | sendServiceMsg (msg : ServiceMsg)
deriving DecidableEq, Repr

/-- Trace of the coordinator task body: it weakens itself by decrementing
the kernel live count directly, runs the service loop, and re-increments
in a `finally` handler that runs whether or not the loop failed. -/
def coordinator_body (loopOk : Bool) : List CoordEvent :=
  [.decCount, .serviceLoop loopOk, .incCount]

/-- `true` when the message registers task `ct`. -/
def registersTask (ct : TaskHandle) : ServiceMsg → Bool
  | .RegisterWeakTask t _ => t == ct
  | _ => false

end WeakTask

namespace WeakTask

/-- C1: For every call to `weaken_task` in which the work runs (the
registration was accepted), and for every way the work finishes (normal
return or failure), the keep-alive counter is decremented exactly once and
incremented exactly once across the call, so its net change is zero. -/
theorem weaken_task_counter_net_zero
    (t : TaskHandle) (workFails serviceAlive : Bool) :
    ((weaken_task t true workFails serviceAlive).1).count .decCount = 1
  ∧ ((weaken_task t true workFails serviceAlive).1).count .incCount = 1
  ∧ netCounterChange (weaken_task t true workFails serviceAlive).1 = 0 := by
  refine ⟨rfl, rfl, ?_⟩
  simp [weaken_task, netCounterChange, counterDelta]

/-- C2: On completion of the work, whether it returned normally or failed,
the cleanup runs unconditionally and in source order: the keep-alive counter
is re-incremented, then the unregister message for the current task handle
is sent; the send is best-effort, so the coordinator having already exited
(`serviceAlive = false`) does not change the outcome of the call. -/
theorem weaken_task_cleanup_order
    (t : TaskHandle) (workFails serviceAlive : Bool) :
    ((weaken_task t true workFails serviceAlive).1).get? 3
        = some (.workEnd workFails)
  ∧ ((weaken_task t true workFails serviceAlive).1).get? 4 = some .incCount
  ∧ ((weaken_task t true workFails serviceAlive).1).get? 5
        = some (.unregisterSend t serviceAlive)
  ∧ ((weaken_task t true workFails serviceAlive).1).length = 6
  ∧ (weaken_task t true workFails false).2
        = (weaken_task t true workFails true).2 := by
  exact ⟨rfl, rfl, rfl, rfl, rfl⟩

/-- C3 counterexample: in the concrete call `weaken_task 0` with the
registration accepted and the work succeeding, the keep-alive decrement does
NOT occur before the registration send — the source sends the registration
first (line 43) and decrements afterwards (line 44). -/
theorem weaken_task_decrement_not_before_register :
    occursBefore ((weaken_task 0 true false true).1)
      .decCount (.registerTrySend 0 true) = false := by
  decide

/-- C3 (amended): in every call to `weaken_task` whose registration is
accepted, the `RegisterWeakTask` message is sent first, the keep-alive
counter is decremented second, and the work starts only after both. -/
theorem weaken_task_register_before_decrement
    (t : TaskHandle) (workFails serviceAlive : Bool) :
    ((weaken_task t true workFails serviceAlive).1).get? 0
        = some (.registerTrySend t true)
  ∧ ((weaken_task t true workFails serviceAlive).1).get? 1 = some .decCount
  ∧ ((weaken_task t true workFails serviceAlive).1).get? 2 = some .workStart := by
  exact ⟨rfl, rfl, rfl⟩

/-- C10: If the registration `try_send` is refused (the coordinator is no
longer alive), `weaken_task` fails by assertion before the keep-alive
counter is decremented and before the work is invoked: the trace contains
no decrement, no increment, and no work start, and the net counter change
is zero. -/
theorem weaken_task_register_failure_no_side_effects
    (t : TaskHandle) (workFails serviceAlive : Bool) :
    (weaken_task t false workFails serviceAlive)
        = ([.registerTrySend t false, .assertFailed], .failedAssert)
  ∧ WeakenEvent.decCount ∉ (weaken_task t false workFails serviceAlive).1
  ∧ WeakenEvent.incCount ∉ (weaken_task t false workFails serviceAlive).1
  ∧ WeakenEvent.workStart ∉ (weaken_task t false workFails serviceAlive).1
  ∧ netCounterChange (weaken_task t false workFails serviceAlive).1 = 0 := by
  refine ⟨rfl, ?_, ?_, ?_, ?_⟩ <;>
    simp [weaken_task, netCounterChange, counterDelta]

/-- Membership form of `mapContains`. -/
theorem mapContains_iff (m : ShutdownMap) (t : TaskHandle) :
    mapContains m t = true ↔ t ∈ mapKeys m := by
  simp [mapContains, mapKeys, List.any_eq_true, List.mem_map, beq_iff_eq]

/-- When the key is absent, `mapPop` returns `none` (the source's
`fail!()` branch). -/
theorem mapPop_eq_none (t : TaskHandle) :
    ∀ m : ShutdownMap, mapContains m t = false → mapPop m t = none := by
  intro m
  induction m with
  | nil => intro _; rfl
  | cons p rest ih =>
    intro h
    rw [mapContains, List.any_cons, Bool.or_eq_false_iff] at h
    obtain ⟨h1, h2⟩ := h
    simp only [mapPop, h1, if_false, Bool.false_eq_true, ih h2]

/-- When the key is present, `mapPop` removes it and returns the channel
the map associates to it. -/
theorem mapPop_of_contains (t : TaskHandle) :
    ∀ m : ShutdownMap, mapContains m t = true →
      ∃ c m', mapPop m t = some (c, m') ∧ lookupTask m t = some c := by
  intro m
  induction m with
  | nil => intro h; simp [mapContains] at h
  | cons p rest ih =>
    intro h
    by_cases h1 : (p.1 == t) = true
    · exact ⟨p.2, rest, by simp [mapPop, h1], by simp [lookupTask, h1]⟩
    · have h2 : mapContains rest t = true := by
        rw [mapContains, List.any_cons, Bool.or_eq_true] at h
        rcases h with hh | hh
        · exact absurd hh h1
        · exact hh
      obtain ⟨c, m', hp, hl⟩ := ih h2
      refine ⟨c, p :: m', ?_, ?_⟩
      · simp only [mapPop, h1, if_false, Bool.false_eq_true, hp]
      · simp only [lookupTask, h1, if_false, Bool.false_eq_true, hl]

/-- The map left by a successful `mapPop` is a sublist of the original. -/
theorem mapPop_sublist (t : TaskHandle) :
    ∀ (m : ShutdownMap) (c : ChanId) (m' : ShutdownMap),
      mapPop m t = some (c, m') → m'.Sublist m := by
  intro m
  induction m with
  | nil => intro c m' h; simp [mapPop] at h
  | cons p rest ih =>
    intro c m' h
    simp only [mapPop] at h
    by_cases h1 : (p.1 == t) = true
    · rw [if_pos h1] at h
      obtain ⟨-, h3⟩ := Prod.mk.injEq .. ▸ Option.some.injEq .. ▸ h
      exact h3 ▸ List.sublist_cons_self p rest
    · rw [if_neg h1] at h
      cases hp : mapPop rest t with
      | none => rw [hp] at h; cases h
      | some cm =>
        rw [hp] at h
        obtain ⟨c0, m0⟩ := cm
        obtain ⟨-, h3⟩ := Prod.mk.injEq .. ▸ Option.some.injEq .. ▸ h
        exact h3 ▸ List.Sublist.cons₂ p (ih c0 m0 hp)

/-- After a successful `mapPop` on a map with no duplicate keys, the popped
key is gone from the remaining map. -/
theorem mapPop_not_contains (t : TaskHandle) :
    ∀ (m : ShutdownMap) (c : ChanId) (m' : ShutdownMap),
      (mapKeys m).Nodup → mapPop m t = some (c, m') →
      mapContains m' t = false := by
  intro m
  induction m with
  | nil => intro c m' _ h; simp [mapPop] at h
  | cons p rest ih =>
    intro c m' hn h
    have hn' : p.1 ∉ mapKeys rest ∧ (mapKeys rest).Nodup := by
      simpa [mapKeys] using hn
    simp only [mapPop] at h
    by_cases h1 : (p.1 == t) = true
    · rw [if_pos h1] at h
      obtain ⟨-, h3⟩ := Prod.mk.injEq .. ▸ Option.some.injEq .. ▸ h
      have hp1 : p.1 = t := by simpa using h1
      subst h3
      cases hb : mapContains rest t with
      | false => rfl
      | true =>
        exact absurd (hp1 ▸ (mapContains_iff rest t).mp hb) hn'.1
    · rw [if_neg h1] at h
      cases hp : mapPop rest t with
      | none => rw [hp] at h; cases h
      | some cm =>
        rw [hp] at h
        obtain ⟨c0, m0⟩ := cm
        obtain ⟨-, h3⟩ := Prod.mk.injEq .. ▸ Option.some.injEq .. ▸ h
        subst h3
        rw [mapContains, List.any_cons, Bool.or_eq_false_iff]
        exact ⟨by simpa using h1, ih c0 m0 hn'.2 hp⟩

/-- Mapping an injective function over a duplicate-free list sends each
element's image exactly once. -/
theorem countSignal_map_nodup (f : ChanId → ChanId × Bool)
    (hf : Function.Injective f) :
    ∀ l : List ChanId, l.Nodup → ∀ c ∈ l,
      countSignal (l.map f) (f c) = 1 := by
  intro l
  induction l with
  | nil => intro _ c hc; cases hc
  | cons x xs ih =>
    intro h c hc
    rw [List.nodup_cons] at h
    rcases List.mem_cons.mp hc with rfl | hmem
    · have hnil : (xs.map f).filter (fun x => decide (x = f c)) = [] := by
        rw [List.filter_eq_nil_iff]
        rintro a ha
        obtain ⟨y, hy, rfl⟩ := List.mem_map.mp ha
        simp only [decide_eq_true_eq]
        intro hfy
        exact h.1 (hf hfy ▸ hy)
      simp [countSignal, List.filter_cons, hnil]
    · have hne : (decide (f x = f c)) = false := by
        simp only [decide_eq_false_iff_not]
        intro hfx
        exact h.1 (hf hfx ▸ hmem)
      have hih := ih h.2 c hmem
      simp only [countSignal, List.map_cons, List.filter_cons] at hih ⊢
      simp [hne, hih]

/-- A fresh insert appends the new binding (source: `LinearMap::insert`
returning `true`). -/
theorem mapInsert_fresh (m : ShutdownMap) (t : TaskHandle) (c : ChanId)
    (h : mapContains m t = false) :
    mapInsert m t c = (m ++ [(t, c)], true) := by
  simp [mapInsert, h]

/-- The coordinator loop preserves the no-duplicate-keys invariant of the
shutdown map: from a map with distinct keys, any state in which it is again
waiting for a message has distinct keys. -/
theorem run_preserves_nodup (alive : ChanId → Bool) :
    ∀ (msgs : List ServiceMsg) (m m' : ShutdownMap),
      (mapKeys m).Nodup →
      (run_weak_task_service alive m msgs).state = .waiting m' →
      (mapKeys m').Nodup := by
  intro msgs
  induction msgs with
  | nil =>
    intro m m' h hr
    simp only [run_weak_task_service, ServiceState.waiting.injEq] at hr
    exact hr ▸ h
  | cons msg rest ih =>
    intro m m' h hr
    cases msg with
    | RegisterWeakTask t c =>
      by_cases hc : mapContains m t = true
      · simp only [run_weak_task_service, mapInsert, hc, if_true] at hr
        cases hr
      · have hc' : mapContains m t = false := by
          cases hb : mapContains m t
          · rfl
          · exact absurd hb hc
        simp only [run_weak_task_service, mapInsert_fresh m t c hc'] at hr
        refine ih (m ++ [(t, c)]) m' ?_ hr
        have ht : t ∉ mapKeys m := fun hmem => hc ((mapContains_iff m t).mpr hmem)
        have hkeys : mapKeys (m ++ [(t, c)]) = mapKeys m ++ [t] := by
          simp [mapKeys]
        rw [hkeys]
        exact List.Nodup.append h (List.nodup_singleton t)
          (fun a ha hb => ht ((List.mem_singleton.mp hb) ▸ ha))
    | UnregisterWeakTask t =>
      cases hp : mapPop m t with
      | none =>
        simp only [run_weak_task_service, hp] at hr
        cases hr
      | some cm =>
        obtain ⟨c, m1⟩ := cm
        simp only [run_weak_task_service, hp] at hr
        refine ih m1 m' ?_ hr
        exact List.Nodup.sublist
          (List.Sublist.map Prod.fst (mapPop_sublist t m c m1 hp)) h
    | Shutdown =>
      simp only [run_weak_task_service] at hr
      cases hr

/-- Messages that register no binding for `ct` leave `ct` out of the map:
the coordinator's key never enters a map it started absent from. -/
theorem run_no_register_not_contains (alive : ChanId → Bool)
    (ct : TaskHandle) :
    ∀ (msgs : List ServiceMsg) (m m' : ShutdownMap),
      msgs.all (fun msg => !(registersTask ct msg)) = true →
      mapContains m ct = false →
      (run_weak_task_service alive m msgs).state = .waiting m' →
      mapContains m' ct = false := by
  intro msgs
  induction msgs with
  | nil =>
    intro m m' _ hm hr
    simp only [run_weak_task_service, ServiceState.waiting.injEq] at hr
    exact hr ▸ hm
  | cons msg rest ih =>
    intro m m' hall hm hr
    rw [List.all_cons, Bool.and_eq_true] at hall
    obtain ⟨h1, h2⟩ := hall
    cases msg with
    | RegisterWeakTask t c =>
      have htc : (t == ct) = false := by simpa [registersTask] using h1
      by_cases hc : mapContains m t = true
      · simp [run_weak_task_service, mapInsert, hc] at hr
      · have hc' : mapContains m t = false := by
          cases hb : mapContains m t
          · rfl
          · exact absurd hb hc
        simp only [run_weak_task_service, mapInsert_fresh m t c hc'] at hr
        have hm' : (m ++ [(t, c)]).any (fun p => p.1 == ct) = false := by
          rw [List.any_append]
          rw [mapContains] at hm
          simp [hm, htc]
        exact ih (m ++ [(t, c)]) m' h2 hm' hr
    | UnregisterWeakTask t =>
      cases hp : mapPop m t with
      | none =>
        simp only [run_weak_task_service, hp] at hr
        cases hr
      | some cm =>
        obtain ⟨c, m1⟩ := cm
        simp only [run_weak_task_service, hp] at hr
        have hm1 : mapContains m1 ct = false := by
          cases hb : mapContains m1 ct
          · rfl
          · have hmem : ct ∈ mapKeys m :=
              (List.Sublist.map Prod.fst (mapPop_sublist t m c m1 hp)).subset
                ((mapContains_iff m1 ct).mp hb)
            have h3 := (mapContains_iff m ct).mpr hmem
            rw [hm] at h3
            exact absurd h3 (by decide)
        exact ih m1 m' h2 hm1 hr
    | Shutdown =>
      simp only [run_weak_task_service] at hr
      cases hr

/-- C4: The shutdown map keeps at most one entry per task handle:
processing `RegisterWeakTask` for a handle already in the map fails the
coordinator (the source's `assert previously_unregistered`), and every map
the coordinator can be found waiting with, starting from the empty map,
has no duplicate keys. -/
theorem register_duplicate_fatal_and_nodup (alive : ChanId → Bool)
    (m : ShutdownMap) (t : TaskHandle) (c : ChanId)
    (msgs ms : List ServiceMsg) (m' : ShutdownMap)
    (hdup : mapContains m t = true)
    (hreach : (run_weak_task_service alive [] ms).state = .waiting m') :
    (run_weak_task_service alive m
        (.RegisterWeakTask t c :: msgs)).state = .failed
  ∧ (mapKeys m').Nodup := by
  constructor
  · simp [run_weak_task_service, mapInsert, hdup]
  · exact run_preserves_nodup alive ms [] m' (by simp [mapKeys]) hreach

/-- Witness for C4 at concrete inputs: the map `[(0, 1)]` already contains
task `0`, the state reached from the empty map by `[Register 1 5]` is
waiting with map `[(1, 5)]`, and the conclusions hold there. -/
theorem register_duplicate_fatal_and_nodup_witness :
    mapContains [(0, 1)] 0 = true
  ∧ (run_weak_task_service (fun _ => true) []
        [.RegisterWeakTask 1 5]).state = .waiting [(1, 5)]
  ∧ ((run_weak_task_service (fun _ => true) [(0, 1)]
        [.RegisterWeakTask 0 2]).state = .failed
      ∧ (mapKeys [(1, 5)]).Nodup) :=
  ⟨by decide, by decide,
    register_duplicate_fatal_and_nodup (fun _ => true) [(0, 1)] 0 2 []
      [.RegisterWeakTask 1 5] [(1, 5)] (by decide) (by decide)⟩

/-- C5: Processing `UnregisterWeakTask t` on a duplicate-free map: when `t`
is present its entry is removed, the shutdown signal is sent on exactly the
channel the map associated to `t`, and the loop continues on the remaining
map; when `t` is absent the coordinator fails (`fail!()`). -/
theorem unregister_present_removes_absent_fatal (alive : ChanId → Bool)
    (m : ShutdownMap) (t : TaskHandle) (msgs : List ServiceMsg)
    (hnodup : (mapKeys m).Nodup) :
    (mapContains m t = true →
      ∃ c mrest, mapPop m t = some (c, mrest)
        ∧ lookupTask m t = some c
        ∧ mapContains mrest t = false
        ∧ run_weak_task_service alive m (.UnregisterWeakTask t :: msgs) =
            ⟨(run_weak_task_service alive mrest msgs).state,
             (c, alive c) ::
               (run_weak_task_service alive mrest msgs).signals⟩)
  ∧ (mapContains m t = false →
      run_weak_task_service alive m (.UnregisterWeakTask t :: msgs) =
        ⟨.failed, []⟩) := by
  constructor
  · intro hc
    obtain ⟨c, mrest, hp, hl⟩ := mapPop_of_contains t m hc
    exact ⟨c, mrest, hp, hl, mapPop_not_contains t m c mrest hnodup hp,
      by simp [run_weak_task_service, hp]⟩
  · intro hc
    simp [run_weak_task_service, mapPop_eq_none t m hc]

/-- Witness for C5 at the concrete map `[(3, 7), (4, 9)]` with task `3`. -/
theorem unregister_present_removes_absent_fatal_witness :
    (mapKeys [(3, 7), (4, 9)]).Nodup
  ∧ ((mapContains [(3, 7), (4, 9)] 3 = true →
      ∃ c mrest, mapPop [(3, 7), (4, 9)] 3 = some (c, mrest)
        ∧ lookupTask [(3, 7), (4, 9)] 3 = some c
        ∧ mapContains mrest 3 = false
        ∧ run_weak_task_service (fun _ => false) [(3, 7), (4, 9)]
              [.UnregisterWeakTask 3] =
            ⟨(run_weak_task_service (fun _ => false) mrest []).state,
             (c, false) ::
               (run_weak_task_service (fun _ => false) mrest []).signals⟩)
  ∧ (mapContains [(3, 7), (4, 9)] 3 = false →
      run_weak_task_service (fun _ => false) [(3, 7), (4, 9)]
          [.UnregisterWeakTask 3] = ⟨.failed, []⟩)) :=
  ⟨by decide,
    unregister_present_removes_absent_fatal (fun _ => false)
      [(3, 7), (4, 9)] 3 [] (by decide)⟩

/-- C6: On `Shutdown` the coordinator exits its receive loop, sends exactly
one shutdown signal on the channel of every entry still in the map (the
channels are pairwise distinct, one fresh channel per registration), then
terminates; entries already removed receive nothing, and messages after
`Shutdown` are never processed (the result does not depend on `post`). -/
theorem shutdown_drain_signals (alive : ChanId → Bool) (m : ShutdownMap)
    (post : List ServiceMsg) (hch : (m.map Prod.snd).Nodup) :
    run_weak_task_service alive m (.Shutdown :: post) =
      ⟨.terminated, m.map (fun p => (p.2, alive p.2))⟩
  ∧ (∀ p ∈ m,
      countSignal (run_weak_task_service alive m (.Shutdown :: post)).signals
          (p.2, alive p.2) = 1)
  ∧ (∀ s ∈ (run_weak_task_service alive m (.Shutdown :: post)).signals,
      ∃ p ∈ m, s = (p.2, alive p.2)) := by
  have hrun : run_weak_task_service alive m (.Shutdown :: post) =
      ⟨.terminated, m.map (fun p => (p.2, alive p.2))⟩ := rfl
  refine ⟨hrun, ?_, ?_⟩
  · intro p hp
    rw [hrun]
    have hmm : m.map (fun p => (p.2, alive p.2)) =
        (m.map Prod.snd).map (fun c => (c, alive c)) := by
      rw [List.map_map]; rfl
    rw [hmm]
    have hinj : Function.Injective (fun c => (c, alive c)) :=
      fun a b hab => congrArg Prod.fst hab
    exact countSignal_map_nodup (fun c => (c, alive c)) hinj
      (m.map Prod.snd) hch p.2 (List.mem_map_of_mem Prod.snd hp)
  · intro s hs
    rw [hrun] at hs
    obtain ⟨p, hp, hps⟩ := List.mem_map.mp hs
    exact ⟨p, hp, hps.symm⟩

/-- Witness for C6 at the concrete map `[(1, 4), (2, 6)]` with channel `4`
alive and channel `6` already abandoned. -/
theorem shutdown_drain_signals_witness :
    (([(1, 4), (2, 6)] : ShutdownMap).map Prod.snd).Nodup
  ∧ (run_weak_task_service (fun c => c == 4) [(1, 4), (2, 6)]
        [.Shutdown, .UnregisterWeakTask 1] =
      ⟨.terminated,
        [(1, 4), (2, 6)].map (fun p => (p.2, (fun c => c == 4) p.2))⟩
    ∧ (∀ p ∈ ([(1, 4), (2, 6)] : ShutdownMap),
        countSignal (run_weak_task_service (fun c => c == 4) [(1, 4), (2, 6)]
            [.Shutdown, .UnregisterWeakTask 1]).signals
            (p.2, (fun c => c == 4) p.2) = 1)
    ∧ (∀ s ∈ (run_weak_task_service (fun c => c == 4) [(1, 4), (2, 6)]
          [.Shutdown, .UnregisterWeakTask 1]).signals,
        ∃ p ∈ ([(1, 4), (2, 6)] : ShutdownMap),
          s = (p.2, (fun c => c == 4) p.2))) :=
  ⟨by decide,
    shutdown_drain_signals (fun c => c == 4) [(1, 4), (2, 6)]
      [.UnregisterWeakTask 1] (by decide)⟩

/-- C7: Receiver liveness of the one-shot shutdown channels never reaches
the coordinator's control flow: for any two liveness assignments the
coordinator reaches the same state (in particular it never fails because a
receiver vanished) and attempts exactly the same sends, on the same
channels in the same order; only the recorded delivery outcomes differ. -/
theorem shutdown_send_failure_swallowed (alive alive' : ChanId → Bool) :
    ∀ (msgs : List ServiceMsg) (m : ShutdownMap),
      (run_weak_task_service alive m msgs).state =
        (run_weak_task_service alive' m msgs).state
    ∧ (run_weak_task_service alive m msgs).signals.map Prod.fst =
        (run_weak_task_service alive' m msgs).signals.map Prod.fst := by
  intro msgs
  induction msgs with
  | nil => intro m; exact ⟨rfl, rfl⟩
  | cons msg rest ih =>
    intro m
    cases msg with
    | RegisterWeakTask t c =>
      by_cases hc : (mapInsert m t c).2 = true
      · simpa [run_weak_task_service, hc] using ih (mapInsert m t c).1
      · have hc' : (mapInsert m t c).2 = false := by
          cases hb : (mapInsert m t c).2
          · rfl
          · exact absurd hb hc
        simp [run_weak_task_service, hc']
    | UnregisterWeakTask t =>
      cases hp : mapPop m t with
      | none => simp [run_weak_task_service, hp]
      | some cm =>
        obtain ⟨c, m1⟩ := cm
        have hih := ih m1
        simp only [run_weak_task_service, hp]
        exact ⟨hih.1, by simp [hih.2]⟩
    | Shutdown =>
      exact ⟨rfl, by simp [run_weak_task_service, List.map_map,
        Function.comp]⟩

/-- C8: Obtaining the global service through the lazy-singleton primitive
constructs it exactly once: the first access runs `create_global_service`,
whose effects are spawning the coordinator task unlinked and registering a
process-exit hook that sends `Shutdown`, and which returns a handle with no
error; every later access returns the same handle and performs no
construction. -/
theorem global_service_single_construction
    (f : Unit → List BootstrapEvent × ServiceHandle) :
    global_data_clone_create none (fun _ => create_global_service) =
      (⟨serviceChanId⟩, some ⟨serviceChanId⟩, (create_global_service).1)
  ∧ BootstrapEvent.spawnCoordinator true ∈ (create_global_service).1
  ∧ BootstrapEvent.registerExitHook .Shutdown ∈ (create_global_service).1
  ∧ global_data_clone_create (some ⟨serviceChanId⟩) f =
      (⟨serviceChanId⟩, some ⟨serviceChanId⟩, []) := by
  exact ⟨rfl, by decide, by decide, rfl⟩

/-- C9: The coordinator weakens itself inline: its body decrements the
keep-alive counter exactly once before the service loop and re-increments
exactly once after the loop ends (whether or not the loop failed), it sends
no message to the service channel — in particular no `RegisterWeakTask` for
itself — and consequently its own handle never appears in any map the
service loop can be found waiting with. -/
theorem coordinator_self_weakening (b : Bool) (ct : TaskHandle)
    (alive : ChanId → Bool) (msgs : List ServiceMsg) (m' : ShutdownMap)
    (hmsgs : msgs.all (fun msg => !(registersTask ct msg)) = true)
    (hrun : (run_weak_task_service alive [] msgs).state = .waiting m') :
    (coordinator_body b).count .decCount = 1
  ∧ (coordinator_body b).count .incCount = 1
  ∧ occursBefore (coordinator_body b) .decCount (.serviceLoop b) = true
  ∧ occursBefore (coordinator_body b) (.serviceLoop b) .incCount = true
  ∧ (∀ msg, CoordEvent.sendServiceMsg msg ∉ coordinator_body b)
  ∧ mapContains m' ct = false := by
  refine ⟨?_, ?_, ?_, ?_, ?_, ?_⟩
  · cases b <;> rfl
  · cases b <;> rfl
  · cases b <;> rfl
  · cases b <;> rfl
  · intro msg
    simp [coordinator_body]
  · exact run_no_register_not_contains alive ct msgs [] m' hmsgs rfl hrun

/-- Witness for C9: coordinator handle `0`, a message list registering only
task `1`, reaching the waiting map `[(1, 5)]`. -/
theorem coordinator_self_weakening_witness :
    ([ServiceMsg.RegisterWeakTask 1 5].all
        (fun msg => !(registersTask 0 msg)) = true)
  ∧ ((run_weak_task_service (fun _ => true) []
        [.RegisterWeakTask 1 5]).state = .waiting [(1, 5)])
  ∧ ((coordinator_body true).count .decCount = 1
    ∧ (coordinator_body true).count .incCount = 1
    ∧ occursBefore (coordinator_body true) .decCount
        (.serviceLoop true) = true
    ∧ occursBefore (coordinator_body true) (.serviceLoop true)
        .incCount = true
    ∧ (∀ msg, CoordEvent.sendServiceMsg msg ∉ coordinator_body true)
    ∧ mapContains [(1, 5)] 0 = false) :=
  ⟨by decide, by decide,
    coordinator_self_weakening true 0 (fun _ => true)
      [.RegisterWeakTask 1 5] [(1, 5)] (by decide) (by decide)⟩

end WeakTask
